import Mathlib

/-!
Verification development for the `acsl-go/sqlschema` repository.

The Go source is shallowly embedded below.  Schema reconciliation code that
talks to the database is modelled as pure functions: `Schema.Update` is split
into the list of SQL statements it would execute (`Schema.updateStatements`),
`Schema.Create` into the single statement it builds (`Schema.createStatement`),
and `ReadFromDB` into a function over an explicit record of database probe
results.  Go's byte-slicing `sql[:len(sql)-1]` is modelled by `chop1`, which
removes the last character (the character removed is always an ASCII `,` or
`(` in this code, so byte and character slicing agree).
-/

namespace Sqlschema

/-- Modelled from the spec: the string-escaping helper `escape` is not part of
the provided source (only its call sites are).  Per the spec, free-text values
are "escaped for safe inclusion in the literal"; we model the usual MySQL
escaping that precedes each single quote and backslash with a backslash. -/
def escape (s : String) : String :=
  String.mk (s.data.foldr (fun c acc => if c = '\'' ∨ c = '\\' then '\\' :: c :: acc else c :: acc) [])

/-- Model of Go's `sql[:len(sql)-1]`: drop the final character. -/
def chop1 (s : String) : String :=
  String.mk s.data.dropLast

/-- Field of a table (`type Field struct` in the source). -/
structure Field where
  Name : String
  «Type» : String
  Nullable : Bool
  AutoIncrement : Bool
  DefaultValue : String
  Comment : String
deriving DecidableEq

/-- Index of a table (`type Index struct` in the source). -/
structure Index where
  Name : String
  Columns : List String
  Primary : Bool
  Unique : Bool
deriving DecidableEq

/-- Table schema (`type Schema struct` in the source). -/
structure Schema where
  Name : String
  Fields : List Field
  Indices : List Index
  Engine : String
  Collate : String
  Comment : String
deriving DecidableEq

/-- Lookup of a field by name (`func (sc *Schema) Field`): first field whose
name matches, `none` when absent. -/
def Schema.Field (sc : Schema) (name : String) : Option Field :=
  sc.Fields.find? (fun field => field.Name == name)

/-- Lookup of an index by name (`func (sc *Schema) Index`): the name `PRIMARY`
is first rewritten to the empty string, and the loop returns the first index
whose name equals the (rewritten) name or, when that name is empty, whose
`Primary` flag is set. -/
def Schema.Index (sc : Schema) (name : String) : Option Index :=
  let name := if name == "PRIMARY" then "" else name
  sc.Indices.find? (fun index => index.Name == name || (name == "" && index.Primary))

/-- Field equality (`func (fd *Field) Equal`): all attributes must agree, with
the default values compared after rewriting the literal `"NULL"` to `""`. -/
def Field.Equal (fd other : Field) : Bool :=
  if fd.Name != other.Name then false
  else if fd.«Type» != other.«Type» then false
  else if fd.Nullable != other.Nullable then false
  else if fd.AutoIncrement != other.AutoIncrement then false
  else
    let defVal1 := if fd.DefaultValue == "NULL" then "" else fd.DefaultValue
    let defVal2 := if other.DefaultValue == "NULL" then "" else other.DefaultValue
    if defVal1 != defVal2 then false
    else if fd.Comment != other.Comment then false
    else true

/-- Index equality (`func (idx *Index) Equal`): primary flags must agree, names
must agree for non-primary indexes, unique flags must agree, and the column
lists must agree position by position. -/
def Index.Equal (idx other : Index) : Bool :=
  if idx.Primary != other.Primary then false
  else if !idx.Primary && idx.Name != other.Name then false
  else if idx.Unique != other.Unique then false
  else if idx.Columns.length != other.Columns.length then false
  else (idx.Columns.zip other.Columns).all (fun c => c.1 == c.2)

/-- The column-definition suffix shared by `Update` (lines 59-73) and `Create`
(lines 16-29): NULL/NOT NULL, then AUTO_INCREMENT, then DEFAULT, then
COMMENT. -/
def fieldSuffix (field : Field) : String :=
  (if field.Nullable then " NULL" else " NOT NULL") ++
  (if field.AutoIncrement then " AUTO_INCREMENT" else "") ++
  (if field.DefaultValue != "" then " DEFAULT " ++ field.DefaultValue else "") ++
  (if field.Comment != "" then " COMMENT '" ++ escape field.Comment ++ "'" else "")

/-- The column-list loop shared by `Update` and `Create`: append each column as
a backquoted name followed by a comma. -/
def appendColumns (sql : String) (columns : List String) : String :=
  columns.foldl (fun s column => s ++ "`" ++ column ++ "`,") sql

/-- Closing of a column list as done in `Update`: chop the final character
(the trailing comma, or the opening parenthesis when there is no column) and
append the closing parenthesis. -/
def closeColumns (sql : String) (columns : List String) : String :=
  chop1 (appendColumns sql columns) ++ ")"

/-- The list of SQL statements `Schema.Update` executes when the table already
exists (`cur` is the introspected schema).  The five loops of the Go function
are reproduced in sequence: table attributes, field drops, field adds and
modifies, index drops, index adds and replaces. -/
def Schema.updateStatements (sc cur : Schema) : List String :=
  (let attrSql :=
    (if sc.Engine != cur.Engine then " ENGINE = " ++ sc.Engine else "") ++
    (if sc.Collate != cur.Collate then " COLLATE = " ++ sc.Collate else "") ++
    (if sc.Comment != cur.Comment then " COMMENT = '" ++ escape sc.Comment ++ "'" else "")
  if attrSql != "" then ["ALTER TABLE `" ++ sc.Name ++ "`" ++ attrSql] else []) ++
  cur.Fields.filterMap (fun field =>
    if (sc.Field field.Name).isNone then
      some ("ALTER TABLE `" ++ sc.Name ++ "` DROP `" ++ field.Name ++ "`")
    else none) ++
  sc.Fields.filterMap (fun field =>
    (cur.Field field.Name).elim
      (some ("ALTER TABLE `" ++ sc.Name ++ "` ADD `" ++ field.Name ++ "` " ++
        field.«Type» ++ fieldSuffix field))
      (fun fd =>
        if !(fd.Equal field) then
          some ("ALTER TABLE `" ++ sc.Name ++ "` MODIFY `" ++ field.Name ++ "` " ++
            field.«Type» ++ fieldSuffix field)
        else none)) ++
  cur.Indices.filterMap (fun index =>
    if (sc.Index index.Name).isNone then
      some ("ALTER TABLE `" ++ sc.Name ++ "` DROP INDEX `" ++ index.Name ++ "`")
    else none) ++
  sc.Indices.filterMap (fun index =>
    let head :=
      (cur.Index index.Name).elim
        (if index.Primary then
          some ("ALTER TABLE `" ++ sc.Name ++ "` ADD PRIMARY KEY (")
        else if index.Unique then
          some ("ALTER TABLE `" ++ sc.Name ++ "` ADD UNIQUE KEY `" ++ index.Name ++ "` (")
        else
          some ("ALTER TABLE `" ++ sc.Name ++ "` ADD KEY `" ++ index.Name ++ "` ("))
        (fun idx =>
          if !(idx.Equal index) then
            if index.Primary then
              some ("ALTER TABLE `" ++ sc.Name ++ "` DROP PRIMARY KEY, ADD PRIMARY KEY (")
            else if index.Unique then
              some ("ALTER TABLE `" ++ sc.Name ++ "` DROP INDEX `" ++ index.Name ++
                "`, ADD UNIQUE KEY `" ++ index.Name ++ "` (")
            else
              some ("ALTER TABLE `" ++ sc.Name ++ "` DROP INDEX `" ++ index.Name ++
                "`, ADD KEY `" ++ index.Name ++ "` (")
          else none)
    head.map (fun s => closeColumns s index.Columns))

/-- The `CREATE TABLE IF NOT EXISTS` statement built by `Schema.Create`. -/
def Schema.createStatement (sc : Schema) : String :=
  let sql := "CREATE TABLE IF NOT EXISTS `" ++ sc.Name ++ "` ("
  let sql := sc.Fields.foldl (fun sql field =>
    sql ++ ("`" ++ field.Name ++ "` " ++ field.«Type» ++ fieldSuffix field ++ ",")) sql
  let sql := sc.Indices.foldl (fun sql index =>
    let sql :=
      if index.Primary then sql ++ "PRIMARY KEY ("
      else if index.Unique then sql ++ "UNIQUE KEY `" ++ index.Name ++ "` ("
      else sql ++ "KEY `" ++ index.Name ++ "` ("
    chop1 (appendColumns sql index.Columns) ++ "),") sql
  let sql := chop1 sql ++ ")"
  sql ++
  (if sc.Engine != "" then " ENGINE=" ++ sc.Engine else "") ++
  (if sc.Collate != "" then " COLLATE=" ++ sc.Collate else "") ++
  (if sc.Comment != "" then " COMMENT='" ++ escape sc.Comment ++ "'" else "")

/-- Result of a single-row query (`QueryRowContext(...).Scan`): no row at all,
a failure, or a scanned row. -/
inductive RowResult (α : Type) where
  | noRows
  | failed (msg : String)
  | row (v : α)
deriving DecidableEq

/-- One row of the `information_schema.COLUMNS` query, as scanned by
`ReadFromDB`: name, type, IS_NULLABLE, COLUMN_DEFAULT (a nullable string),
comment, and EXTRA. -/
structure ColumnRow where
  columnName : String
  columnType : String
  isNullable : String
  columnDefault : Option String
  columnComment : String
  extra : String
deriving DecidableEq

/-- One row of the `information_schema.STATISTICS` query, as scanned by
`ReadFromDB`: index name, sequence number, column name, NON_UNIQUE. -/
structure IndexRow where
  indexName : String
  seqInIndex : Int
  columnName : String
  nonUnique : Int
deriving DecidableEq

/-- The database as `ReadFromDB` observes it: the result of each of the four
probes it performs. -/
structure DB where
  databaseName : RowResult String
  tableMeta : RowResult (String × String × String)
  columnRows : Except String (List ColumnRow)
  indexRows : Except String (List IndexRow)

/-- The index-grouping step of `ReadFromDB`: a row for a known index name
appends its column to that index, and a row for a fresh name appends a new
index, marked primary when named `PRIMARY` and unique when `NON_UNIQUE` is 0.
The Go code keeps a map from index name to position; since a name is inserted
only once, looking up the first position with `findIdx?` is equivalent. -/
def addIndexRow (acc : List Index) (r : IndexRow) : List Index :=
  match acc.findIdx? (fun ix => ix.Name == r.indexName) with
  | some i =>
      acc.modify (fun ix => { ix with Columns := ix.Columns ++ [r.columnName] }) i
  | none =>
      let primary := r.indexName == "PRIMARY"
      acc ++ [{ Name := r.indexName, Columns := [r.columnName], Primary := primary,
                Unique := !primary && r.nonUnique == 0 }]

/-- A scanned column row, translated to a `Field` as `ReadFromDB` does. -/
def fieldOfColumnRow (r : ColumnRow) : Field :=
  { Name := r.columnName, «Type» := r.columnType,
    Nullable := r.isNullable == "YES",
    AutoIncrement := r.extra == "auto_increment",
    DefaultValue := match r.columnDefault with | some s => s | none => "",
    Comment := r.columnComment }

/-- Model of `func ReadFromDB`: resolve the database name, probe the table
metadata (no row means the table is absent, reported as `ok none`, not as an
error), then read the column and index catalogs. -/
def ReadFromDB (db : DB) (name : String) : Except String (Option Schema) :=
  match db.databaseName with
  | .noRows => .error "Get database name failed"
  | .failed e => .error ("Get database name failed: " ++ e)
  | .row _ =>
    match db.tableMeta with
    | .noRows => .ok none
    | .failed e => .error ("Get table info failed: " ++ e)
    | .row (engine, collate, comment) =>
      match db.columnRows with
      | .error e => .error ("Get table columns failed: " ++ e)
      | .ok cols =>
        match db.indexRows with
        | .error e => .error ("Get table indexs failed: " ++ e)
        | .ok irows =>
          .ok (some { Name := name, Fields := cols.map fieldOfColumnRow,
                      Indices := irows.foldl addIndexRow [],
                      Engine := engine, Collate := collate, Comment := comment })

/-- Model of `func (sc *Schema) Update`: introspect the current schema; on a
read error propagate it; when the table is absent run `Create`; otherwise run
the reconciliation statements.  The value is the list of statements executed.
-/
def Schema.Update (sc : Schema) (db : DB) : Except String (List String) :=
  match ReadFromDB db sc.Name with
  | .error e => .error e
  | .ok none => .ok [sc.createStatement]
  | .ok (some cur) => .ok (sc.updateStatements cur)

/-! Spec-side characterizations: the diffing phases of §4.3, the default
normalization of §4.1, and small helpers used by the theorems. -/

/-- Spec-side: the default-value normalization of §4.1, mapping the textual
literal `NULL` to the empty (no-default) value. -/
def normalizeDefault (s : String) : String :=
  if s = "NULL" then "" else s

/-- Spec-side phase 1: the combined table-attribute change, present exactly
when engine, collation or comment differ, carrying only the changed
attributes. -/
def tableAttrOps (sc cur : Schema) : List String :=
  if sc.Engine = cur.Engine ∧ sc.Collate = cur.Collate ∧ sc.Comment = cur.Comment then []
  else ["ALTER TABLE `" ++ sc.Name ++ "`" ++
        (if sc.Engine = cur.Engine then "" else " ENGINE = " ++ sc.Engine) ++
        (if sc.Collate = cur.Collate then "" else " COLLATE = " ++ sc.Collate) ++
        (if sc.Comment = cur.Comment then "" else " COMMENT = '" ++ escape sc.Comment ++ "'")]

/-- Spec-side phase 2: a drop for every field of the actual schema absent from
the desired one, in the actual schema's field order. -/
def fieldDropOps (sc cur : Schema) : List String :=
  (cur.Fields.filter (fun field => (sc.Field field.Name).isNone)).map
    (fun field => "ALTER TABLE `" ++ sc.Name ++ "` DROP `" ++ field.Name ++ "`")

/-- Spec-side phase 3, one field: an add when the field is absent from the
actual schema, a modify when present but not equal, nothing otherwise. -/
def fieldAddModOp (tableName : String) (old : Option Field) (field : Field) : Option String :=
  match old with
  | none =>
      some ("ALTER TABLE `" ++ tableName ++ "` ADD `" ++ field.Name ++ "` " ++
        field.«Type» ++ fieldSuffix field)
  | some fd =>
      if fd.Equal field then none
      else
        some ("ALTER TABLE `" ++ tableName ++ "` MODIFY `" ++ field.Name ++ "` " ++
          field.«Type» ++ fieldSuffix field)

/-- Spec-side phase 3: adds/modifies for every field of the desired schema, in
its order. -/
def fieldAddModOps (sc cur : Schema) : List String :=
  sc.Fields.filterMap (fun field => fieldAddModOp sc.Name (cur.Field field.Name) field)

/-- Spec-side phase 4: a drop for every index of the actual schema absent from
the desired one, in the actual schema's index order. -/
def indexDropOps (sc cur : Schema) : List String :=
  (cur.Indices.filter (fun index => (sc.Index index.Name).isNone)).map
    (fun index => "ALTER TABLE `" ++ sc.Name ++ "` DROP INDEX `" ++ index.Name ++ "`")

/-- Spec-side phase 5, one index: an add when the index is absent from the
actual schema, a single drop-then-add replacement when present but not equal,
nothing otherwise. -/
def indexAddModOp (tableName : String) (old : Option Index) (index : Index) : Option String :=
  match old with
  | none =>
      some (closeColumns
        (if index.Primary then
          "ALTER TABLE `" ++ tableName ++ "` ADD PRIMARY KEY ("
        else if index.Unique then
          "ALTER TABLE `" ++ tableName ++ "` ADD UNIQUE KEY `" ++ index.Name ++ "` ("
        else
          "ALTER TABLE `" ++ tableName ++ "` ADD KEY `" ++ index.Name ++ "` (") index.Columns)
  | some idx =>
      if idx.Equal index then none
      else
        some (closeColumns
          (if index.Primary then
            "ALTER TABLE `" ++ tableName ++ "` DROP PRIMARY KEY, ADD PRIMARY KEY ("
          else if index.Unique then
            "ALTER TABLE `" ++ tableName ++ "` DROP INDEX `" ++ index.Name ++
              "`, ADD UNIQUE KEY `" ++ index.Name ++ "` ("
          else
            "ALTER TABLE `" ++ tableName ++ "` DROP INDEX `" ++ index.Name ++
              "`, ADD KEY `" ++ index.Name ++ "` (") index.Columns)

/-- Spec-side phase 5: adds/replacements for every index of the desired
schema, in its order. -/
def indexAddModOps (sc cur : Schema) : List String :=
  sc.Indices.filterMap (fun index => indexAddModOp sc.Name (cur.Index index.Name) index)

/-- A string is empty exactly when its character list is. -/
lemma string_eq_empty_iff (s : String) : s = "" ↔ s.data = [] := by
  cases s
  constructor
  · intro h
    simpa using congrArg String.data h
  · intro h
    simpa using congrArg String.mk h

/-- Appending cannot erase characters: if the left part is nonempty so is the
whole. -/
lemma append_ne_empty_of_left (s t : String) (h : s ≠ "") : s ++ t ≠ "" := by
  intro hc
  apply h
  rw [string_eq_empty_iff] at hc ⊢
  rw [String.data_append] at hc
  exact (List.append_eq_nil.mp hc).1

/-- Appending cannot erase characters: if the right part is nonempty so is the
whole. -/
lemma append_ne_empty_of_right (s t : String) (h : t ≠ "") : s ++ t ≠ "" := by
  intro hc
  apply h
  rw [string_eq_empty_iff] at hc ⊢
  rw [String.data_append] at hc
  exact (List.append_eq_nil.mp hc).2

/-- A loop that emits a statement exactly for the elements passing a guard is
a map over a filter. -/
lemma filterMap_if_guard {α : Type} (q : α → Bool) (g : α → String) (l : List α) :
    (l.filterMap (fun a => if q a then some (g a) else none)) =
      (l.filter q).map g := by
  induction l with
  | nil => rfl
  | cons a t ih =>
    cases h : q a <;>
      simp [List.filterMap_cons, List.filter_cons, h, ih]

/-- Element-wise equality of zipped lists of equal length is list equality. -/
lemma zip_all_beq_iff : ∀ {l₁ l₂ : List String}, l₁.length = l₂.length →
    (((l₁.zip l₂).all fun c => c.1 == c.2) = true ↔ l₁ = l₂) := by
  intro l₁
  induction l₁ with
  | nil =>
    intro l₂ h
    cases l₂ with
    | nil => simp
    | cons b t => simp at h
  | cons a t ih =>
    intro l₂ h
    cases l₂ with
    | nil => simp at h
    | cons b t₂ =>
      simp only [List.zip_cons_cons, List.all_cons, Bool.and_eq_true, beq_iff_eq]
      rw [List.length_cons, List.length_cons] at h
      rw [ih (Nat.succ_injective h)]
      constructor
      · rintro ⟨h1, h2⟩
        rw [h1, h2]
      · intro hc
        injection hc with hc1 hc2
        exact ⟨hc1, hc2⟩

/-- The attribute component of `Schema.updateStatements` is the spec's
phase 1. -/
lemma append_eq_empty_iff (s t : String) : s ++ t = "" ↔ s = "" ∧ t = "" := by
  rw [string_eq_empty_iff, string_eq_empty_iff, string_eq_empty_iff, String.data_append]
  exact List.append_eq_nil

lemma attr_component (sc cur : Schema) :
    (let attrSql :=
      (if sc.Engine != cur.Engine then " ENGINE = " ++ sc.Engine else "") ++
      (if sc.Collate != cur.Collate then " COLLATE = " ++ sc.Collate else "") ++
      (if sc.Comment != cur.Comment then " COMMENT = '" ++ escape sc.Comment ++ "'" else "")
    if attrSql != "" then ["ALTER TABLE `" ++ sc.Name ++ "`" ++ attrSql] else []) =
    tableAttrOps sc cur := by
  dsimp only
  by_cases hE : sc.Engine = cur.Engine <;> by_cases hL : sc.Collate = cur.Collate <;>
    by_cases hM : sc.Comment = cur.Comment <;>
    simp [tableAttrOps, hE, hL, hM, append_eq_empty_iff, String.append_assoc]

/-- The field add/modify loop body agrees with the spec's per-field
operation. -/
lemma fieldAddMod_pointwise (sc cur : Schema) (field : Field) :
    ((cur.Field field.Name).elim
      (some ("ALTER TABLE `" ++ sc.Name ++ "` ADD `" ++ field.Name ++ "` " ++
        field.«Type» ++ fieldSuffix field))
      (fun fd =>
        if !(fd.Equal field) then
          some ("ALTER TABLE `" ++ sc.Name ++ "` MODIFY `" ++ field.Name ++ "` " ++
            field.«Type» ++ fieldSuffix field)
        else none)) = fieldAddModOp sc.Name (cur.Field field.Name) field := by
  cases h : cur.Field field.Name with
  | none => rfl
  | some fd =>
    simp only [fieldAddModOp, Option.elim]
    cases he : fd.Equal field <;> simp [he]

/-- The index add/replace loop body agrees with the spec's per-index
operation. -/
lemma indexAddMod_pointwise (sc cur : Schema) (index : Index) :
    (((cur.Index index.Name).elim
      (if index.Primary then
        some ("ALTER TABLE `" ++ sc.Name ++ "` ADD PRIMARY KEY (")
      else if index.Unique then
        some ("ALTER TABLE `" ++ sc.Name ++ "` ADD UNIQUE KEY `" ++ index.Name ++ "` (")
      else
        some ("ALTER TABLE `" ++ sc.Name ++ "` ADD KEY `" ++ index.Name ++ "` ("))
      (fun idx =>
        if !(idx.Equal index) then
          if index.Primary then
            some ("ALTER TABLE `" ++ sc.Name ++ "` DROP PRIMARY KEY, ADD PRIMARY KEY (")
          else if index.Unique then
            some ("ALTER TABLE `" ++ sc.Name ++ "` DROP INDEX `" ++ index.Name ++
              "`, ADD UNIQUE KEY `" ++ index.Name ++ "` (")
          else
            some ("ALTER TABLE `" ++ sc.Name ++ "` DROP INDEX `" ++ index.Name ++
              "`, ADD KEY `" ++ index.Name ++ "` (")
        else none)).map (fun s => closeColumns s index.Columns)) =
      indexAddModOp sc.Name (cur.Index index.Name) index := by
  cases h : cur.Index index.Name with
  | none =>
    simp only [indexAddModOp, Option.elim]
    cases hp : index.Primary <;> cases hu : index.Unique <;> simp [hp, hu]
  | some idx =>
    simp only [indexAddModOp, Option.elim]
    cases he : idx.Equal index
    · cases hp : index.Primary <;> cases hu : index.Unique <;> simp [he, hp, hu]
    · simp [he]

/-- `Schema.updateStatements` is exactly the concatenation of the five spec
phases, in order. -/
lemma update_eq_phases (sc cur : Schema) :
    sc.updateStatements cur =
      tableAttrOps sc cur ++ fieldDropOps sc cur ++ fieldAddModOps sc cur ++
      indexDropOps sc cur ++ indexAddModOps sc cur := by
  have hdrop :
      cur.Fields.filterMap (fun field =>
        if (sc.Field field.Name).isNone then
          some ("ALTER TABLE `" ++ sc.Name ++ "` DROP `" ++ field.Name ++ "`")
        else none) = fieldDropOps sc cur :=
    filterMap_if_guard (fun field => (sc.Field field.Name).isNone)
      (fun field => "ALTER TABLE `" ++ sc.Name ++ "` DROP `" ++ field.Name ++ "`") cur.Fields
  have haddmod :
      sc.Fields.filterMap (fun field =>
        (cur.Field field.Name).elim
          (some ("ALTER TABLE `" ++ sc.Name ++ "` ADD `" ++ field.Name ++ "` " ++
            field.«Type» ++ fieldSuffix field))
          (fun fd =>
            if !(fd.Equal field) then
              some ("ALTER TABLE `" ++ sc.Name ++ "` MODIFY `" ++ field.Name ++ "` " ++
                field.«Type» ++ fieldSuffix field)
            else none)) = fieldAddModOps sc cur :=
    congrArg (List.filterMap · sc.Fields) (funext fun field => fieldAddMod_pointwise sc cur field)
  have hidxdrop :
      cur.Indices.filterMap (fun index =>
        if (sc.Index index.Name).isNone then
          some ("ALTER TABLE `" ++ sc.Name ++ "` DROP INDEX `" ++ index.Name ++ "`")
        else none) = indexDropOps sc cur :=
    filterMap_if_guard (fun index => (sc.Index index.Name).isNone)
      (fun index => "ALTER TABLE `" ++ sc.Name ++ "` DROP INDEX `" ++ index.Name ++ "`") cur.Indices
  have hidxaddmod :
      sc.Indices.filterMap (fun index =>
        (((cur.Index index.Name).elim
          (if index.Primary then
            some ("ALTER TABLE `" ++ sc.Name ++ "` ADD PRIMARY KEY (")
          else if index.Unique then
            some ("ALTER TABLE `" ++ sc.Name ++ "` ADD UNIQUE KEY `" ++ index.Name ++ "` (")
          else
            some ("ALTER TABLE `" ++ sc.Name ++ "` ADD KEY `" ++ index.Name ++ "` ("))
          (fun idx =>
            if !(idx.Equal index) then
              if index.Primary then
                some ("ALTER TABLE `" ++ sc.Name ++ "` DROP PRIMARY KEY, ADD PRIMARY KEY (")
              else if index.Unique then
                some ("ALTER TABLE `" ++ sc.Name ++ "` DROP INDEX `" ++ index.Name ++
                  "`, ADD UNIQUE KEY `" ++ index.Name ++ "` (")
              else
                some ("ALTER TABLE `" ++ sc.Name ++ "` DROP INDEX `" ++ index.Name ++
                  "`, ADD KEY `" ++ index.Name ++ "` (")
            else none)).map (fun s => closeColumns s index.Columns))) =
        indexAddModOps sc cur :=
    congrArg (List.filterMap · sc.Indices) (funext fun index => indexAddMod_pointwise sc cur index)
  unfold Schema.updateStatements
  rw [attr_component, hdrop, haddmod, hidxdrop, hidxaddmod]

/-- A field with everything defaulted, used to build concrete schemas. -/
def plainField (n t : String) : Field :=
  { Name := n, «Type» := t, Nullable := false, AutoIncrement := false,
    DefaultValue := "", Comment := "" }

/-- C2: the change list produced by `Schema.Update` is exactly the five spec
phases in their fixed order — the combined table-attribute statement (present
exactly when engine, collation or comment differ, and at most one statement),
then the field drops in the actual schema's field order, then the field
adds/modifies in the desired schema's field order, then the index drops in the
actual schema's index order, then the index adds/replaces in the desired
schema's index order.  In particular every field drop precedes every field
add/modify and every index drop precedes every index add/replace. -/
theorem update_phase_order (sc cur : Schema) :
    sc.updateStatements cur =
      tableAttrOps sc cur ++ fieldDropOps sc cur ++ fieldAddModOps sc cur ++
      indexDropOps sc cur ++ indexAddModOps sc cur ∧
    (tableAttrOps sc cur = [] ↔
      (sc.Engine = cur.Engine ∧ sc.Collate = cur.Collate ∧ sc.Comment = cur.Comment)) ∧
    (tableAttrOps sc cur = [] ∨ ∃ s, tableAttrOps sc cur = [s]) := by
  refine ⟨update_eq_phases sc cur, ?_, ?_⟩ <;>
    unfold tableAttrOps <;>
    by_cases h : sc.Engine = cur.Engine ∧ sc.Collate = cur.Collate ∧ sc.Comment = cur.Comment <;>
    simp [h]

/-- Witness: the phase decomposition evaluated at a concrete pair of
schemas. -/
theorem update_phase_order_witness :
    (let sc : Schema :=
      { Name := "t", Fields := [plainField "id" "int"], Indices := [],
        Engine := "InnoDB", Collate := "c1", Comment := "" }
    let cur : Schema :=
      { Name := "t", Fields := [plainField "id" "int", plainField "old" "int"], Indices := [],
        Engine := "MyISAM", Collate := "c1", Comment := "" }
    sc.updateStatements cur =
      tableAttrOps sc cur ++ fieldDropOps sc cur ++ fieldAddModOps sc cur ++
      indexDropOps sc cur ++ indexAddModOps sc cur ∧
    (tableAttrOps sc cur = [] ↔
      (sc.Engine = cur.Engine ∧ sc.Collate = cur.Collate ∧ sc.Comment = cur.Comment)) ∧
    (tableAttrOps sc cur = [] ∨ ∃ s, tableAttrOps sc cur = [s])) :=
  update_phase_order _ _

/-- Closing a nonempty list of column comparisons: helper for the
`Index.Equal` characterization. -/
lemma length_guard_zip_iff (l₁ l₂ : List String) :
    ((if (l₁.length != l₂.length) = true then false
      else (l₁.zip l₂).all fun c => c.1 == c.2) = true) ↔ l₁ = l₂ := by
  by_cases h : l₁.length = l₂.length
  · rw [if_neg (by simp [h])]
    exact zip_all_beq_iff h
  · rw [if_pos (by simp [h])]
    constructor
    · intro hc
      exact absurd hc (by decide)
    · intro hc
      exact (h (congrArg List.length hc)).elim

/-- Characterization of `Index.Equal` as a conjunction. -/
lemma index_equal_iff (i j : Index) :
    i.Equal j = true ↔
      (i.Primary = j.Primary ∧ (i.Primary = false → i.Name = j.Name) ∧
       i.Unique = j.Unique ∧ i.Columns = j.Columns) := by
  unfold Index.Equal
  by_cases hP : i.Primary = j.Primary
  · rw [if_neg (show ¬((i.Primary != j.Primary) = true) by simp [hP])]
    by_cases hpn : (!i.Primary && (i.Name != j.Name)) = true
    · rw [if_pos hpn]
      have hraw : (!i.Primary) = true ∧ (i.Name != j.Name) = true :=
        Bool.and_eq_true_iff.mp hpn
      have h1 : i.Primary = false := by simpa using hraw.1
      have h2 : i.Name ≠ j.Name := bne_iff_ne.mp hraw.2
      simp [h1, h2]
    · rw [if_neg hpn]
      have himp : i.Primary = false → i.Name = j.Name := by
        intro hf
        by_contra hne
        exact hpn (Bool.and_eq_true_iff.mpr (by simp [hf, hne]))
      by_cases hU : i.Unique = j.Unique
      · rw [if_neg (show ¬((i.Unique != j.Unique) = true) by simp [hU])]
        rw [length_guard_zip_iff]
        constructor
        · intro hc
          exact ⟨hP, himp, hU, hc⟩
        · intro hc
          exact hc.2.2.2
      · rw [if_pos (show (i.Unique != j.Unique) = true by simp [hU])]
        simp [hU]
  · rw [if_pos (show (i.Primary != j.Primary) = true by simp [hP])]
    simp [hP]

/-- Desired-side index over columns (a, b) for the column-order scenario. -/
def ixColsAB : Index := { Name := "i", Columns := ["a", "b"], Primary := false, Unique := true }

/-- Actual-side index over columns (b, a) for the column-order scenario. -/
def ixColsBA : Index := { Name := "i", Columns := ["b", "a"], Primary := false, Unique := true }

/-- Desired schema whose only index is `ixColsAB`. -/
def scColsAB : Schema :=
  { Name := "t", Fields := [plainField "a" "int", plainField "b" "int"],
    Indices := [ixColsAB], Engine := "E", Collate := "c", Comment := "" }

/-- Actual schema identical to `scColsAB` except for the column order of its
index. -/
def scColsBA : Schema :=
  { Name := "t", Fields := [plainField "a" "int", plainField "b" "int"],
    Indices := [ixColsBA], Engine := "E", Collate := "c", Comment := "" }

/-- C4: `Index.Equal` is exactly the conjunction of matching primary flags,
matching names when not primary, matching unique flags, and identical column
sequences (length and order); consequently the index on (a, b) is not equal to
the index on (b, a), and diffing two schemas that differ only in that
reordering yields exactly one replace operation — a single drop-then-add
statement, not a no-op. -/
theorem index_column_order_sensitivity :
    (∀ i j : Index, i.Equal j = true ↔
      (i.Primary = j.Primary ∧ (i.Primary = false → i.Name = j.Name) ∧
       i.Unique = j.Unique ∧ i.Columns = j.Columns)) ∧
    Index.Equal ixColsBA ixColsAB = false ∧
    Schema.updateStatements scColsAB scColsBA =
      ["ALTER TABLE `t` DROP INDEX `i`, ADD UNIQUE KEY `i` (`a`,`b`)"] :=
  ⟨fun i j => index_equal_iff i j, by decide, by decide⟩

/-- Witness: the `Index.Equal` characterization evaluated on the two concrete
indexes of the column-order scenario. -/
theorem index_column_order_sensitivity_witness :
    Index.Equal ixColsAB ixColsAB = true ↔
      (ixColsAB.Primary = ixColsAB.Primary ∧
       (ixColsAB.Primary = false → ixColsAB.Name = ixColsAB.Name) ∧
       ixColsAB.Unique = ixColsAB.Unique ∧ ixColsAB.Columns = ixColsAB.Columns) :=
  index_column_order_sensitivity.1 ixColsAB ixColsAB

/-- C3: two fields that agree on name, type, nullability, auto-increment and
comment, and whose default values agree after normalizing the literal `NULL`
to the empty (no-default) value, are `Field.Equal`; consequently the diff of
such a pair produces no modify operation. -/
theorem default_value_normalization (f g : Field)
    (h1 : f.Name = g.Name) (h2 : f.«Type» = g.«Type») (h3 : f.Nullable = g.Nullable)
    (h4 : f.AutoIncrement = g.AutoIncrement) (h5 : f.Comment = g.Comment)
    (h6 : normalizeDefault f.DefaultValue = normalizeDefault g.DefaultValue) :
    f.Equal g = true ∧ ∀ tableName : String, fieldAddModOp tableName (some f) g = none := by
  have heq : f.Equal g = true := by
    unfold Field.Equal
    rw [h1, h2, h3, h4, h5]
    have h6b : (if f.DefaultValue == "NULL" then "" else f.DefaultValue) =
        (if g.DefaultValue == "NULL" then "" else g.DefaultValue) := by
      simpa [normalizeDefault, beq_iff_eq] using h6
    rw [h6b]
    simp
  refine ⟨heq, fun tableName => ?_⟩
  simp [fieldAddModOp, heq]

/-- Witness: a field whose default is the literal `NULL` compares equal to the
same field with no default, and yields no modify operation. -/
theorem default_value_normalization_witness :
    ({ plainField "a" "int" with DefaultValue := "NULL" } : Field).Equal
      (plainField "a" "int") = true ∧
    ∀ tableName : String,
      fieldAddModOp tableName (some { plainField "a" "int" with DefaultValue := "NULL" })
        (plainField "a" "int") = none :=
  default_value_normalization _ _ rfl rfl rfl rfl rfl (by decide)


/-- A non-primary index whose name is literally the empty string. -/
def emptyNameIx : Index := { Name := "", Columns := ["x"], Primary := false, Unique := false }

/-- A primary index named `PRIMARY`, as `ReadFromDB` builds it. -/
def primaryNamedIx : Index := { Name := "PRIMARY", Columns := ["x"], Primary := true, Unique := false }

/-- A schema in which the empty-named non-primary index precedes the primary
index. -/
def shadowSchema : Schema :=
  { Name := "t", Fields := [plainField "x" "int"],
    Indices := [emptyNameIx, primaryNamedIx], Engine := "", Collate := "", Comment := "" }

/-- C10: `Schema.Index` treats the lookup names `PRIMARY` and the empty string
identically, returning the first index whose name is empty or whose primary
flag is set; hence a non-primary index literally named the empty string that
precedes the primary index shadows it, and an index literally named `PRIMARY`
whose primary flag is false is matched by neither lookup. -/
theorem index_lookup_primary_empty_overload :
    (∀ sc : Schema, sc.Index "PRIMARY" = sc.Index "") ∧
    (∀ sc : Schema,
      sc.Index "" = sc.Indices.find? (fun ix => ix.Name == "" || ix.Primary)) ∧
    shadowSchema.Index "PRIMARY" = some emptyNameIx ∧
    shadowSchema.Index "" = some emptyNameIx ∧
    (∀ (sc : Schema) (ix : Index), ix.Name = "PRIMARY" → ix.Primary = false →
      sc.Index "PRIMARY" ≠ some ix ∧ sc.Index "" ≠ some ix) := by
  refine ⟨fun sc => rfl, fun sc => rfl, by decide, by decide, fun sc ix hn hp => ?_⟩
  constructor <;>
    · intro hc
      have hc2 : sc.Indices.find?
          (fun index => index.Name == "" || ("" == "" && index.Primary)) = some ix := hc
      have hpred := List.find?_some hc2
      rw [hn, hp] at hpred
      exact absurd hpred (by decide)

/-- Witness: the lookup overload applied to the concrete shadowing schema,
with the never-matched fact discharged on a concrete fake `PRIMARY` index. -/
theorem index_lookup_primary_empty_overload_witness :
    shadowSchema.Index "PRIMARY" = shadowSchema.Index "" ∧
    (shadowSchema.Index "PRIMARY" ≠
        some { Name := "PRIMARY", Columns := ["x"], Primary := false, Unique := false } ∧
     shadowSchema.Index "" ≠
        some { Name := "PRIMARY", Columns := ["x"], Primary := false, Unique := false }) :=
  ⟨index_lookup_primary_empty_overload.1 shadowSchema,
   index_lookup_primary_empty_overload.2.2.2.2 shadowSchema
     { Name := "PRIMARY", Columns := ["x"], Primary := false, Unique := false } rfl rfl⟩


/-- Desired schema asking for a primary index over zero columns. -/
def zeroColSchema : Schema :=
  { Name := "t", Fields := [plainField "id" "int"],
    Indices := [{ Name := "", Columns := [], Primary := true, Unique := false }],
    Engine := "E", Collate := "c", Comment := "" }

/-- The same table as introspected: identical but without the index. -/
def zeroColActual : Schema :=
  { Name := "t", Fields := [plainField "id" "int"], Indices := [],
    Engine := "E", Collate := "c", Comment := "" }

/-- C7: an index operation whose column list is empty is not rejected; the
emitter silently produces a syntactically malformed statement in which the
final-character chop removes the opening parenthesis instead of a trailing
comma.  Both the reconciliation path and the creation path do so. -/
theorem zero_column_index_emits_malformed_sql :
    Schema.updateStatements zeroColSchema zeroColActual =
      ["ALTER TABLE `t` ADD PRIMARY KEY )"] ∧
    Schema.createStatement zeroColSchema =
      "CREATE TABLE IF NOT EXISTS `t` (`id` int NOT NULL,PRIMARY KEY )) ENGINE=E COLLATE=c" := by
  constructor <;> decide

/-- Desired schema for the primary-drop scenario: no index at all. -/
def primaryDropDesired : Schema :=
  { Name := "t", Fields := [plainField "id" "int"], Indices := [],
    Engine := "E", Collate := "c", Comment := "" }

/-- Actual schema for the primary-drop scenario: a primary key over `id`,
named `PRIMARY` as `ReadFromDB` names it. -/
def primaryDropActual : Schema :=
  { Name := "t", Fields := [plainField "id" "int"],
    Indices := [{ Name := "PRIMARY", Columns := ["id"], Primary := true, Unique := false }],
    Engine := "E", Collate := "c", Comment := "" }

/-- C5 counterexample: dropping a primary index with no counterpart in the
desired schema emits the generic drop-index-by-name statement, and the
dedicated primary-key-drop form appears nowhere in the change list. -/
theorem primary_drop_form_counterexample :
    Schema.updateStatements primaryDropDesired primaryDropActual =
      ["ALTER TABLE `t` DROP INDEX `PRIMARY`"] ∧
    ¬ (("DROP PRIMARY KEY").data <:+:
        ("ALTER TABLE `t` DROP INDEX `PRIMARY`").data) := by
  constructor <;> decide

/-- C5 amended: every index of the actual schema with no counterpart in the
desired schema — the primary index included — is dropped with the generic
drop-index-by-name statement. -/
theorem index_drop_uses_generic_form (sc cur : Schema) (ix : Index)
    (hmem : ix ∈ cur.Indices) (habsent : sc.Index ix.Name = none) :
    ("ALTER TABLE `" ++ sc.Name ++ "` DROP INDEX `" ++ ix.Name ++ "`") ∈
      sc.updateStatements cur := by
  rw [update_eq_phases]
  have hdrop : ("ALTER TABLE `" ++ sc.Name ++ "` DROP INDEX `" ++ ix.Name ++ "`") ∈
      indexDropOps sc cur := by
    unfold indexDropOps
    exact List.mem_map_of_mem _ (List.mem_filter.mpr ⟨hmem, by simp [habsent]⟩)
  simp only [List.mem_append]
  exact Or.inl (Or.inr hdrop)

/-- Witness: the generic drop statement is in the change list of the concrete
primary-drop scenario. -/
theorem index_drop_uses_generic_form_witness :
    ("ALTER TABLE `" ++ primaryDropDesired.Name ++ "` DROP INDEX `" ++
        ({ Name := "PRIMARY", Columns := ["id"], Primary := true,
           Unique := false } : Index).Name ++ "`") ∈
      primaryDropDesired.updateStatements primaryDropActual :=
  index_drop_uses_generic_form primaryDropDesired primaryDropActual
    { Name := "PRIMARY", Columns := ["id"], Primary := true, Unique := false }
    (by decide) (by decide)


/-- Spec-side well-formedness of a schema, the invariants of the spec's data
model (§3): field names are pairwise distinct; non-primary index names are
pairwise distinct and avoid the reserved names (the empty string and
`PRIMARY`); at most one index is primary; and a primary index carries no
independent name (it is named either `PRIMARY`, as `ReadFromDB` builds it, or
the empty string). -/
def Schema.WF (sc : Schema) : Prop :=
  ((sc.Fields.map (fun f => f.Name)).Nodup) ∧
  (((sc.Indices.filter (fun ix => !ix.Primary)).map (fun ix => ix.Name)).Nodup) ∧
  ((sc.Indices.filter (fun ix => ix.Primary)).length ≤ 1) ∧
  (∀ ix ∈ sc.Indices, ix.Primary = false → ix.Name ≠ "" ∧ ix.Name ≠ "PRIMARY") ∧
  (∀ ix ∈ sc.Indices, ix.Primary = true → ix.Name = "" ∨ ix.Name = "PRIMARY")

instance (sc : Schema) : Decidable sc.WF := by
  unfold Schema.WF
  infer_instance

/-- Looking up the name of a member field with pairwise-distinct names finds
that field. -/
lemma find_field_self (l : List Field) (h : (l.map (fun f => f.Name)).Nodup)
    (f : Field) (hf : f ∈ l) :
    l.find? (fun g => g.Name == f.Name) = some f := by
  induction l with
  | nil => cases hf
  | cons a t ih =>
    rw [List.map_cons, List.nodup_cons] at h
    rcases List.mem_cons.mp hf with rfl | hmem
    · exact List.find?_cons_of_pos _ (by simp)
    · have hne : a.Name ≠ f.Name := by
        intro he
        apply h.1
        rw [he]
        exact List.mem_map_of_mem _ hmem
      rw [List.find?_cons_of_neg _ (by simp [hne])]
      exact ih h.2 hmem

/-- `Schema.Field` finds every member field of a well-formed schema. -/
lemma schema_field_self (sc : Schema) (h : (sc.Fields.map (fun f => f.Name)).Nodup)
    (f : Field) (hf : f ∈ sc.Fields) :
    sc.Field f.Name = some f :=
  find_field_self sc.Fields h f hf

/-- With at most one primary index and no empty non-primary name, the
primary-or-empty-name search finds the member primary index. -/
lemma find_primary_self (l : List Index)
    (hne : ∀ j ∈ l, j.Primary = false → j.Name ≠ "")
    (hp : (l.filter (fun j => j.Primary)).length ≤ 1) :
    ∀ ix ∈ l, ix.Primary = true →
      l.find? (fun j => j.Name == "" || j.Primary) = some ix := by
  induction l with
  | nil => intro ix h; cases h
  | cons a t ih =>
    intro ix hmem hpri
    rcases List.mem_cons.mp hmem with rfl | hmem2
    · exact List.find?_cons_of_pos _ (by simp [hpri])
    · have hap : a.Primary = false := by
        by_contra hc
        have ha : a.Primary = true := by
          revert hc
          cases a.Primary <;> simp
        have h1 : (List.filter (fun j => j.Primary) (a :: t)).length =
            (List.filter (fun j => j.Primary) t).length + 1 := by
          simp [List.filter_cons, ha]
        have h2 : ix ∈ List.filter (fun j => j.Primary) t :=
          List.mem_filter.mpr ⟨hmem2, hpri⟩
        have h3 := List.length_pos_of_mem h2
        rw [h1] at hp
        omega
      have hna : a.Name ≠ "" := hne a (List.mem_cons_self a t) hap
      rw [List.find?_cons_of_neg _ (by simp [hna, hap])]
      refine ih (fun j hj => hne j (List.mem_cons_of_mem a hj)) ?_ ix hmem2 hpri
      rw [List.filter_cons_of_neg (by simp [hap])] at hp
      exact hp

/-- With distinct non-primary names and reserved primary names, the search by
a non-reserved name finds the member index of that name. -/
lemma find_nonprimary_self (l : List Index)
    (hnd : ((l.filter (fun j => !j.Primary)).map (fun j => j.Name)).Nodup)
    (hpn : ∀ j ∈ l, j.Primary = true → j.Name = "" ∨ j.Name = "PRIMARY") :
    ∀ ix ∈ l, ix.Primary = false → ix.Name ≠ "" → ix.Name ≠ "PRIMARY" →
      l.find? (fun j => j.Name == ix.Name) = some ix := by
  induction l with
  | nil => intro ix h; cases h
  | cons a t ih =>
    intro ix hmem hpri hn1 hn2
    rcases List.mem_cons.mp hmem with rfl | hmem2
    · exact List.find?_cons_of_pos _ (by simp)
    · have hane : a.Name ≠ ix.Name := by
        by_cases hap : a.Primary = true
        · rcases hpn a (List.mem_cons_self a t) hap with h | h <;> rw [h]
          · exact fun hc => hn1 hc.symm
          · exact fun hc => hn2 hc.symm
        · have hapf : a.Primary = false := by
            revert hap
            cases a.Primary <;> simp
          rw [List.filter_cons_of_pos (by simp [hapf]), List.map_cons,
            List.nodup_cons] at hnd
          intro he
          apply hnd.1
          rw [he]
          exact List.mem_map_of_mem _ (List.mem_filter.mpr ⟨hmem2, by simp [hpri]⟩)
      rw [List.find?_cons_of_neg _ (by simp [hane])]
      have hnd2 : ((t.filter (fun j => !j.Primary)).map (fun j => j.Name)).Nodup := by
        by_cases hap : a.Primary = true
        · rw [List.filter_cons_of_neg (by simp [hap])] at hnd
          exact hnd
        · have hapf : a.Primary = false := by
            revert hap
            cases a.Primary <;> simp
          rw [List.filter_cons_of_pos (by simp [hapf]), List.map_cons,
            List.nodup_cons] at hnd
          exact hnd.2
      exact ih hnd2 (fun j hj => hpn j (List.mem_cons_of_mem a hj)) ix hmem2 hpri hn1 hn2

/-- `Schema.Index` finds every member index of a well-formed schema. -/
lemma schema_index_self (sc : Schema) (h : sc.WF) (ix : Index)
    (hmem : ix ∈ sc.Indices) :
    sc.Index ix.Name = some ix := by
  obtain ⟨-, h2, h3, h4, h5⟩ := h
  unfold Schema.Index
  dsimp only
  by_cases hpri : ix.Primary = true
  · have hname : (if (ix.Name == "PRIMARY") = true then "" else ix.Name) = "" := by
      rcases h5 ix hmem hpri with h | h <;> simp [h]
    rw [hname]
    have hfun : (fun (index : Index) => index.Name == "" || ("" == "" && index.Primary)) =
        (fun index => index.Name == "" || index.Primary) := by
      funext index
      simp
    rw [hfun]
    exact find_primary_self sc.Indices (fun j hj hjf => (h4 j hj hjf).1) h3 ix hmem hpri
  · have hprif : ix.Primary = false := by
      revert hpri
      cases ix.Primary <;> simp
    obtain ⟨hn1, hn2⟩ := h4 ix hmem hprif
    have hname : (if (ix.Name == "PRIMARY") = true then "" else ix.Name) = ix.Name := by
      simp [hn2]
    rw [hname]
    have hfun : (fun (index : Index) => index.Name == ix.Name || (ix.Name == "" && index.Primary)) =
        (fun index => index.Name == ix.Name) := by
      funext index
      have : (ix.Name == "") = false := beq_eq_false_iff_ne.mpr hn1
      simp [this]
    rw [hfun]
    exact find_nonprimary_self sc.Indices h2 h5 ix hmem hprif hn1 hn2

/-- `Field.Equal` is reflexive. -/
lemma field_equal_refl (f : Field) : f.Equal f = true := by
  unfold Field.Equal
  simp

/-- `Index.Equal` is reflexive. -/
lemma index_equal_refl (ix : Index) : ix.Equal ix = true := by
  rw [index_equal_iff]
  exact ⟨rfl, fun _ => rfl, rfl, rfl⟩


/-- C1: reconciling two structurally identical well-formed schemas emits no
ALTER statement at all — the change list is empty. -/
theorem reconciliation_idempotent (D A : Schema) (hWF : D.WF) (hid : D = A) :
    D.updateStatements A = [] := by
  subst hid
  rw [update_eq_phases]
  have h1 : tableAttrOps D D = [] := by simp [tableAttrOps]
  have h2 : fieldDropOps D D = [] := by
    unfold fieldDropOps
    rw [List.filter_eq_nil_iff.mpr fun f hf => by
      simp [schema_field_self D hWF.1 f hf]]
    rfl
  have h3 : fieldAddModOps D D = [] := by
    unfold fieldAddModOps
    refine List.filterMap_eq_nil_iff.mpr fun f hf => ?_
    rw [schema_field_self D hWF.1 f hf]
    simp [fieldAddModOp, field_equal_refl]
  have h4 : indexDropOps D D = [] := by
    unfold indexDropOps
    rw [List.filter_eq_nil_iff.mpr fun ix hix => by
      simp [schema_index_self D hWF ix hix]]
    rfl
  have h5 : indexAddModOps D D = [] := by
    unfold indexAddModOps
    refine List.filterMap_eq_nil_iff.mpr fun ix hix => ?_
    rw [schema_index_self D hWF ix hix]
    simp [indexAddModOp, index_equal_refl]
  rw [h1, h2, h3, h4, h5]
  rfl

/-- A representative well-formed schema with a primary key, a unique index, a
composite plain index, an auto-increment column and a normalized default. -/
def idemSchema : Schema :=
  { Name := "people",
    Fields :=
      [{ plainField "id" "bigint(20)" with AutoIncrement := true },
       { plainField "name" "varchar(64)" with Nullable := true, DefaultValue := "NULL" },
       plainField "age" "int"],
    Indices :=
      [{ Name := "PRIMARY", Columns := ["id"], Primary := true, Unique := false },
       { Name := "idx_name", Columns := ["name"], Primary := false, Unique := true },
       { Name := "idx_age_name", Columns := ["age", "name"], Primary := false, Unique := false }],
    Engine := "InnoDB", Collate := "utf8mb4_general_ci", Comment := "people table" }

/-- Witness: the idempotence theorem applied to the concrete schema above. -/
theorem reconciliation_idempotent_witness :
    idemSchema.WF ∧ idemSchema.updateStatements idemSchema = [] :=
  ⟨by decide, reconciliation_idempotent idemSchema idemSchema (by decide) rfl⟩


/-- Rebuilding a string from its characters is the identity. -/
lemma mk_data (s : String) : String.mk s.data = s := by
  cases s
  rfl

/-- Appending strings appends their character lists. -/
lemma mk_append (a b : List Char) : String.mk a ++ String.mk b = String.mk (a ++ b) := rfl

/-- A nonempty string has a nonempty character list. -/
lemma data_ne_nil (s : String) (h : s ≠ "") : s.data ≠ [] :=
  fun hc => h ((string_eq_empty_iff s).mpr hc)

/-- A fold whose step only appends extends its start string. -/
lemma foldl_extends {β : Type} (g : String → β → String)
    (hg : ∀ s b, ∃ t : String, g s b = s ++ t) :
    ∀ (l : List β) (s0 : String), ∃ t : String, l.foldl g s0 = s0 ++ t := by
  intro l
  induction l with
  | nil =>
    intro s0
    exact ⟨"", (String.append_empty s0).symm⟩
  | cons b tl ih =>
    intro s0
    obtain ⟨tb, htb⟩ := hg s0 b
    obtain ⟨tt, htt⟩ := ih (g s0 b)
    exact ⟨tb ++ tt, by rw [List.foldl_cons, htt, htb, String.append_assoc]⟩

/-- The column loop only appends. -/
lemma appendColumns_extends (sql : String) (cols : List String) :
    ∃ t : String, appendColumns sql cols = sql ++ t :=
  foldl_extends _ (fun s c => ⟨"`" ++ c ++ "`,", by simp [String.append_assoc]⟩) cols sql

/-- A character-list prefix of a string stays a prefix after appending on the
right. -/
lemma append_keeps_head (p : List Char) (a b : String) (h : p <+: a.data) :
    p <+: (a ++ b).data := by
  rw [String.data_append]
  exact h.trans (List.prefix_append _ _)

/-- Chopping the final character of `P ++ rest` cannot reach into `P` when
`rest` is nonempty, so `P`'s characters stay a prefix. -/
lemma chop1_append_keeps_head (P rest : String) (h : rest.data ≠ []) :
    P.data <+: (chop1 (P ++ rest)).data := by
  unfold chop1
  rw [String.data_append, List.dropLast_append_of_ne_nil _ h]
  exact List.prefix_append _ _

/-- Chopping the final character of a string extended on the right by a
nonempty remainder keeps the base as an extension: the result is still the
base followed by something. -/
lemma chop1_of_append_extends (s hd cs : String) (hhd : hd ≠ "") :
    ∃ t : String, chop1 ((s ++ hd) ++ cs) = s ++ t := by
  refine ⟨String.mk ((hd.data ++ cs.data).dropLast), ?_⟩
  have hne : hd.data ++ cs.data ≠ [] :=
    fun hc => data_ne_nil hd hhd (List.append_eq_nil.mp hc).1
  unfold chop1
  rw [String.data_append, String.data_append, List.append_assoc,
    List.dropLast_append_of_ne_nil _ hne, ← mk_append, mk_data]

/-- Each step of the index-clause loop of `Schema.Create` extends the string
built so far. -/
lemma create_index_step_extends (sql : String) (index : Index) :
    ∃ t : String,
      (chop1 (appendColumns
        (if index.Primary then sql ++ "PRIMARY KEY ("
         else if index.Unique then sql ++ "UNIQUE KEY `" ++ index.Name ++ "` ("
         else sql ++ "KEY `" ++ index.Name ++ "` (") index.Columns) ++ "),") = sql ++ t := by
  have hbranch : ∃ hd : String, hd ≠ "" ∧
      (if index.Primary then sql ++ "PRIMARY KEY ("
       else if index.Unique then sql ++ "UNIQUE KEY `" ++ index.Name ++ "` ("
       else sql ++ "KEY `" ++ index.Name ++ "` (") = sql ++ hd := by
    cases hp : index.Primary
    · cases hu : index.Unique
      · exact ⟨"KEY `" ++ (index.Name ++ "` ("),
          append_ne_empty_of_left "KEY `" _ (by decide), by simp [String.append_assoc]⟩
      · exact ⟨"UNIQUE KEY `" ++ (index.Name ++ "` ("),
          append_ne_empty_of_left "UNIQUE KEY `" _ (by decide), by simp [String.append_assoc]⟩
    · exact ⟨"PRIMARY KEY (", by decide, by simp⟩
  obtain ⟨hd, hhd, hbr⟩ := hbranch
  rw [hbr]
  obtain ⟨cs, hcs⟩ := appendColumns_extends (sql ++ hd) index.Columns
  rw [hcs]
  obtain ⟨t, ht⟩ := chop1_of_append_extends sql hd cs hhd
  rw [ht, String.append_assoc]
  exact ⟨t ++ "),", rfl⟩

/-- The generated CREATE statement always begins with the literal
`CREATE TABLE IF NOT EXISTS` and a backquote. -/
lemma createStatement_head (sc : Schema) :
    ("CREATE TABLE IF NOT EXISTS `").data <+: (sc.createStatement).data := by
  unfold Schema.createStatement
  dsimp only
  obtain ⟨t1, ht1⟩ := foldl_extends
    (fun sql field => sql ++ ("`" ++ field.Name ++ "` " ++ field.«Type» ++ fieldSuffix field ++ ","))
    (fun s b => ⟨_, rfl⟩) sc.Fields
    ("CREATE TABLE IF NOT EXISTS `" ++ sc.Name ++ "` (")
  obtain ⟨t2, ht2⟩ := foldl_extends _
    (fun s index => create_index_step_extends s index) sc.Indices
    (sc.Fields.foldl
      (fun sql field => sql ++ ("`" ++ field.Name ++ "` " ++ field.«Type» ++ fieldSuffix field ++ ","))
      ("CREATE TABLE IF NOT EXISTS `" ++ sc.Name ++ "` ("))
  rw [ht2, ht1]
  have hshape : (("CREATE TABLE IF NOT EXISTS `" ++ sc.Name ++ "` (") ++ t1) ++ t2 =
      "CREATE TABLE IF NOT EXISTS `" ++ (sc.Name ++ ("` (" ++ (t1 ++ t2))) := by
    simp [String.append_assoc]
  rw [hshape]
  have hrest : (sc.Name ++ ("` (" ++ (t1 ++ t2))).data ≠ [] := by
    apply data_ne_nil
    exact append_ne_empty_of_right _ _ (append_ne_empty_of_left _ _ (by decide))
  have hpre := chop1_append_keeps_head "CREATE TABLE IF NOT EXISTS `"
    (sc.Name ++ ("` (" ++ (t1 ++ t2))) hrest
  exact append_keeps_head _ _ _ (append_keeps_head _ _ _
    (append_keeps_head _ _ _ (append_keeps_head _ _ _ hpre)))

/-- No generated CREATE statement begins with `ALTER`. -/
lemma createStatement_not_alter (sc : Schema) : ¬ (("ALTER").data <+: (sc.createStatement).data) := by
  intro h
  obtain ⟨t1, ht1⟩ := h
  obtain ⟨t2, ht2⟩ := createStatement_head sc
  have hA : (sc.createStatement).data.head? = some 'A' := by
    rw [← ht1]
    rfl
  have hC : (sc.createStatement).data.head? = some 'C' := by
    rw [← ht2]
    rfl
  rw [hA] at hC
  exact absurd hC (by decide)


/-- C8: when the table-metadata probe returns no row, `ReadFromDB` reports the
distinguished absent result (no schema, no error), and `Schema.Update` on that
result takes the whole-table creation path: it executes exactly the one
`CREATE TABLE IF NOT EXISTS` statement and never an ALTER statement. -/
theorem not_found_short_circuit (db : DB) (sc : Schema) (dbName : String)
    (h1 : db.databaseName = RowResult.row dbName)
    (h2 : db.tableMeta = RowResult.noRows) :
    ReadFromDB db sc.Name = Except.ok none ∧
    sc.Update db = Except.ok [sc.createStatement] ∧
    ("CREATE TABLE IF NOT EXISTS `").data <+: (sc.createStatement).data ∧
    ¬ (("ALTER").data <+: (sc.createStatement).data) := by
  have hread : ReadFromDB db sc.Name = Except.ok none := by
    unfold ReadFromDB
    rw [h1, h2]
  refine ⟨hread, ?_, createStatement_head sc, createStatement_not_alter sc⟩
  unfold Schema.Update
  rw [hread]

/-- A database in which the table-metadata probe finds no row. -/
def absentTableDb : DB :=
  { databaseName := RowResult.row "appdb", tableMeta := RowResult.noRows,
    columnRows := Except.ok [], indexRows := Except.ok [] }

/-- A concrete desired schema for the not-found scenario. -/
def absentTableSchema : Schema :=
  { Name := "t8", Fields := [plainField "id" "int"], Indices := [],
    Engine := "InnoDB", Collate := "", Comment := "" }

/-- Witness: the not-found short-circuit on the concrete database and
schema. -/
theorem not_found_short_circuit_witness :
    ReadFromDB absentTableDb absentTableSchema.Name = Except.ok none ∧
    absentTableSchema.Update absentTableDb =
      Except.ok [absentTableSchema.createStatement] ∧
    ("CREATE TABLE IF NOT EXISTS `").data <+: (absentTableSchema.createStatement).data ∧
    ¬ (("ALTER").data <+: (absentTableSchema.createStatement).data) :=
  not_found_short_circuit absentTableDb absentTableSchema "appdb" rfl rfl


/-- Concatenation of a list of strings. -/
def strConcat (l : List String) : String :=
  l.foldr (fun a b => a ++ b) ""

/-- Comma-separated join of a list of strings. -/
def joinComma : List String → String
  | [] => ""
  | [x] => x
  | x :: y :: xs => x ++ "," ++ joinComma (y :: xs)

/-- Spec-side: the rendered clause of one column definition. -/
def fieldClause (field : Field) : String :=
  "`" ++ field.Name ++ "` " ++ field.«Type» ++ fieldSuffix field

/-- Spec-side: the rendered clause of one index. -/
def indexClause (index : Index) : String :=
  (if index.Primary then "PRIMARY KEY ("
   else if index.Unique then "UNIQUE KEY `" ++ index.Name ++ "` ("
   else "KEY `" ++ index.Name ++ "` (") ++
  joinComma (index.Columns.map (fun c => "`" ++ c ++ "`")) ++ ")"

lemma strConcat_cons (a : String) (l : List String) :
    strConcat (a :: l) = a ++ strConcat l := rfl

lemma strConcat_append (l1 l2 : List String) :
    strConcat (l1 ++ l2) = strConcat l1 ++ strConcat l2 := by
  induction l1 with
  | nil =>
    rw [List.nil_append]
    exact (String.empty_append _).symm
  | cons a t ih =>
    rw [List.cons_append, strConcat_cons, strConcat_cons, ih, String.append_assoc]

lemma foldl_append_concat {β : Type} (g : β → String) :
    ∀ (l : List β) (s0 : String),
      l.foldl (fun s b => s ++ g b) s0 = s0 ++ strConcat (l.map g) := by
  intro l
  induction l with
  | nil =>
    intro s0
    exact (String.append_empty s0).symm
  | cons b t ih =>
    intro s0
    rw [List.foldl_cons, List.map_cons, strConcat_cons, ih, String.append_assoc]

lemma strConcat_comma (l : List String) (h : l ≠ []) :
    strConcat (l.map (fun x => x ++ ",")) = joinComma l ++ "," := by
  induction l with
  | nil => exact absurd rfl h
  | cons a t ih =>
    cases t with
    | nil =>
      show (a ++ ",") ++ strConcat [] = joinComma [a] ++ ","
      rw [show strConcat [] = "" from rfl, String.append_empty]
      rfl
    | cons b t2 =>
      show (a ++ ",") ++ strConcat ((b :: t2).map (fun x => x ++ ",")) =
        joinComma (a :: b :: t2) ++ ","
      rw [ih (by simp)]
      show (a ++ ",") ++ (joinComma (b :: t2) ++ ",") =
        (a ++ "," ++ joinComma (b :: t2)) ++ ","
      simp [String.append_assoc]

lemma chop1_append_comma (s : String) : chop1 (s ++ ",") = s := by
  unfold chop1
  rw [String.data_append, show (",").data = [','] from rfl, List.dropLast_concat, mk_data]

/-- One step of the index-clause loop of `Schema.Create`, on an index with at
least one column, appends exactly the index clause and a comma. -/
lemma create_index_step_clause (sql : String) (index : Index) (h : index.Columns ≠ []) :
    chop1 (appendColumns
      (if index.Primary then sql ++ "PRIMARY KEY ("
       else if index.Unique then sql ++ "UNIQUE KEY `" ++ index.Name ++ "` ("
       else sql ++ "KEY `" ++ index.Name ++ "` (") index.Columns) ++ ")," =
    sql ++ (indexClause index ++ ",") := by
  have hcols : ∀ s : String, appendColumns s index.Columns =
      s ++ (joinComma (index.Columns.map (fun c => "`" ++ c ++ "`")) ++ ",") := by
    intro s
    unfold appendColumns
    have hg : (fun (s : String) (column : String) => s ++ "`" ++ column ++ "`,") =
        (fun (s : String) column => s ++ ("`" ++ column ++ "`" ++ ",")) := by
      funext s c
      simp [String.append_assoc]
    rw [hg, foldl_append_concat (fun column => "`" ++ column ++ "`" ++ ",")]
    congr 1
    have hmap : index.Columns.map (fun column => "`" ++ column ++ "`" ++ ",") =
        (index.Columns.map (fun c => "`" ++ c ++ "`")).map (fun x => x ++ ",") := by
      rw [List.map_map]
      rfl
    rw [hmap, strConcat_comma _ (by simpa using h)]
  have hbranch : ∃ hd : String,
      (if index.Primary then sql ++ "PRIMARY KEY ("
       else if index.Unique then sql ++ "UNIQUE KEY `" ++ index.Name ++ "` ("
       else sql ++ "KEY `" ++ index.Name ++ "` (") = sql ++ hd ∧
      indexClause index =
        hd ++ joinComma (index.Columns.map (fun c => "`" ++ c ++ "`")) ++ ")" := by
    unfold indexClause
    cases hp : index.Primary
    · cases hu : index.Unique
      · exact ⟨"KEY `" ++ index.Name ++ "` (", by simp [String.append_assoc], by simp⟩
      · exact ⟨"UNIQUE KEY `" ++ index.Name ++ "` (", by simp [String.append_assoc], by simp⟩
    · exact ⟨"PRIMARY KEY (", by simp, by simp⟩
  obtain ⟨hd, hbr, hcl⟩ := hbranch
  rw [hbr, hcols (sql ++ hd), hcl]
  rw [show (sql ++ hd) ++ (joinComma (index.Columns.map (fun c => "`" ++ c ++ "`")) ++ ",") =
      ((sql ++ hd) ++ joinComma (index.Columns.map (fun c => "`" ++ c ++ "`"))) ++ ","
    from by simp [String.append_assoc]]
  rw [chop1_append_comma]
  simp [String.append_assoc]


/-- Index of the first occurrence of `pat` (as a character infix) in `s`. -/
def strFindIdx (pat s : String) : Option Nat :=
  (List.range (s.data.length + 1)).find? (fun i => pat.data.isPrefixOf (s.data.drop i))

/-- C6 amended: the generated CREATE statement lists the column clauses in
field order followed by the index clauses in the schema's index order (the
primary-key clause is not moved to the front), with the table attributes
appended after the closing parenthesis. -/
theorem create_clause_order (sc : Schema)
    (h : sc.Fields ≠ [] ∨ sc.Indices ≠ [])
    (hcols : ∀ ix ∈ sc.Indices, ix.Columns ≠ []) :
    sc.createStatement =
      "CREATE TABLE IF NOT EXISTS `" ++ sc.Name ++ "` (" ++
        joinComma (sc.Fields.map fieldClause ++ sc.Indices.map indexClause) ++ ")" ++
      (if sc.Engine != "" then " ENGINE=" ++ sc.Engine else "") ++
      (if sc.Collate != "" then " COLLATE=" ++ sc.Collate else "") ++
      (if sc.Comment != "" then " COMMENT='" ++ escape sc.Comment ++ "'" else "") := by
  unfold Schema.createStatement
  dsimp only
  have hg : (fun (sql : String) (field : Field) =>
      sql ++ ("`" ++ field.Name ++ "` " ++ field.«Type» ++ fieldSuffix field ++ ",")) =
      (fun (sql : String) field => sql ++ (fieldClause field ++ ",")) := by
    funext sql field
    simp [fieldClause, String.append_assoc]
  rw [hg, foldl_append_concat (fun field => fieldClause field ++ ",")]
  have hi : ∀ (l : List Index) (s0 : String), (∀ ix ∈ l, ix.Columns ≠ []) →
      l.foldl (fun sql index =>
        chop1 (appendColumns
          (if index.Primary then sql ++ "PRIMARY KEY ("
           else if index.Unique then sql ++ "UNIQUE KEY `" ++ index.Name ++ "` ("
           else sql ++ "KEY `" ++ index.Name ++ "` (") index.Columns) ++ "),") s0 =
      s0 ++ strConcat (l.map (fun index => indexClause index ++ ",")) := by
    intro l
    induction l with
    | nil =>
      intro s0 _
      exact (String.append_empty s0).symm
    | cons ix t ih =>
      intro s0 hc
      rw [List.foldl_cons, create_index_step_clause s0 ix (hc ix (List.mem_cons_self ix t)),
        ih _ (fun j hj => hc j (List.mem_cons_of_mem ix hj)), List.map_cons, strConcat_cons,
        String.append_assoc]
  rw [hi sc.Indices _ hcols]
  rw [show (("CREATE TABLE IF NOT EXISTS `" ++ sc.Name ++ "` (") ++
      strConcat (sc.Fields.map (fun field => fieldClause field ++ ","))) ++
      strConcat (sc.Indices.map (fun index => indexClause index ++ ",")) =
      ("CREATE TABLE IF NOT EXISTS `" ++ sc.Name ++ "` (") ++
      strConcat (sc.Fields.map (fun field => fieldClause field ++ ",") ++
        sc.Indices.map (fun index => indexClause index ++ ","))
    from by rw [String.append_assoc, ← strConcat_append]]
  have hmaps : sc.Fields.map (fun field => fieldClause field ++ ",") ++
      sc.Indices.map (fun index => indexClause index ++ ",") =
      ((sc.Fields.map fieldClause ++ sc.Indices.map indexClause).map (fun x => x ++ ",")) := by
    rw [List.map_append, List.map_map, List.map_map]
    rfl
  rw [hmaps, strConcat_comma _ (by
    intro hc
    rcases List.append_eq_nil.mp hc with ⟨hf, hix⟩
    rcases h with h | h
    · exact h (List.map_eq_nil_iff.mp hf)
    · exact h (List.map_eq_nil_iff.mp hix))]
  rw [show ("CREATE TABLE IF NOT EXISTS `" ++ sc.Name ++ "` (") ++
      (joinComma (sc.Fields.map fieldClause ++ sc.Indices.map indexClause) ++ ",") =
      (("CREATE TABLE IF NOT EXISTS `" ++ sc.Name ++ "` (") ++
        joinComma (sc.Fields.map fieldClause ++ sc.Indices.map indexClause)) ++ ","
    from by simp [String.append_assoc]]
  rw [chop1_append_comma]

/-- A schema whose primary index is listed second, after a plain index. -/
def primarySecondSchema : Schema :=
  { Name := "t", Fields := [plainField "id" "int"],
    Indices :=
      [{ Name := "k", Columns := ["id"], Primary := false, Unique := false },
       { Name := "", Columns := ["id"], Primary := true, Unique := false }],
    Engine := "", Collate := "", Comment := "" }

/-- C6 counterexample: with the primary index listed second, the rendered
statement puts the plain `KEY` clause before the `PRIMARY KEY` clause, so the
primary-key clause does not come first. -/
theorem create_primary_first_counterexample :
    Schema.createStatement primarySecondSchema =
      "CREATE TABLE IF NOT EXISTS `t` (`id` int NOT NULL,KEY `k` (`id`),PRIMARY KEY (`id`))" ∧
    strFindIdx "KEY `k`" (Schema.createStatement primarySecondSchema) = some 50 ∧
    strFindIdx "PRIMARY KEY (" (Schema.createStatement primarySecondSchema) = some 65 ∧
    (50 : Nat) < 65 := by
  refine ⟨by decide, ?_, ?_, by decide⟩ <;> decide

/-- Witness: the clause-order decomposition on the concrete schema whose
primary index is second. -/
theorem create_clause_order_witness :
    Schema.createStatement primarySecondSchema =
      "CREATE TABLE IF NOT EXISTS `" ++ primarySecondSchema.Name ++ "` (" ++
        joinComma (primarySecondSchema.Fields.map fieldClause ++
          primarySecondSchema.Indices.map indexClause) ++ ")" ++
      (if primarySecondSchema.Engine != "" then " ENGINE=" ++ primarySecondSchema.Engine else "") ++
      (if primarySecondSchema.Collate != "" then " COLLATE=" ++ primarySecondSchema.Collate else "") ++
      (if primarySecondSchema.Comment != "" then
        " COMMENT='" ++ escape primarySecondSchema.Comment ++ "'" else "") :=
  create_clause_order primarySecondSchema (Or.inl (by decide)) (by decide)


/-- A field whose declared default value contains single quotes. -/
def rawDefaultField : Field :=
  { Name := "a", «Type» := "varchar(8)", Nullable := false, AutoIncrement := false,
    DefaultValue := "'x'y'", Comment := "" }

/-- A schema containing only `rawDefaultField`. -/
def rawDefaultSchema : Schema :=
  { Name := "t", Fields := [rawDefaultField], Indices := [],
    Engine := "", Collate := "", Comment := "" }

set_option maxRecDepth 8192 in
/-- C9 counterexample: the default-value literal is rendered verbatim — the
quote characters inside it reach the statement unescaped, and the escaped form
appears nowhere. -/
theorem default_escaping_counterexample :
    Schema.createStatement rawDefaultSchema =
      "CREATE TABLE IF NOT EXISTS `t` (`a` varchar(8) NOT NULL DEFAULT 'x'y')" ∧
    (" DEFAULT " ++ rawDefaultField.DefaultValue).data <:+:
      (Schema.createStatement rawDefaultSchema).data ∧
    ¬ ((escape rawDefaultField.DefaultValue).data <:+:
      (Schema.createStatement rawDefaultSchema).data) := by
  refine ⟨by decide, by decide, by decide⟩

/-- C9 amended: in the generated ADD statement for a new field, the column
identifier is backquoted and the comment text passes through `escape`, but the
default-value literal is appended verbatim, without escaping or quoting. -/
theorem literal_quoting_and_escaping (sc cur : Schema) (f : Field)
    (hmem : f ∈ sc.Fields) (habsent : cur.Field f.Name = none)
    (hdv : f.DefaultValue ≠ "") (hcm : f.Comment ≠ "") :
    ("ALTER TABLE `" ++ sc.Name ++ "` ADD `" ++ f.Name ++ "` " ++ f.«Type» ++ fieldSuffix f) ∈
      sc.updateStatements cur ∧
    ("`" ++ f.Name ++ "`").data <:+:
      ("ALTER TABLE `" ++ sc.Name ++ "` ADD `" ++ f.Name ++ "` " ++ f.«Type» ++ fieldSuffix f).data ∧
    (" DEFAULT " ++ f.DefaultValue).data <:+:
      ("ALTER TABLE `" ++ sc.Name ++ "` ADD `" ++ f.Name ++ "` " ++ f.«Type» ++ fieldSuffix f).data ∧
    (" COMMENT '" ++ escape f.Comment ++ "'").data <:+:
      ("ALTER TABLE `" ++ sc.Name ++ "` ADD `" ++ f.Name ++ "` " ++ f.«Type» ++ fieldSuffix f).data := by
  have hsuffix : fieldSuffix f =
      (if f.Nullable then " NULL" else " NOT NULL") ++
      (if f.AutoIncrement then " AUTO_INCREMENT" else "") ++
      (" DEFAULT " ++ f.DefaultValue) ++
      (" COMMENT '" ++ escape f.Comment ++ "'") := by
    unfold fieldSuffix
    rw [if_pos (bne_iff_ne.mpr hdv), if_pos (bne_iff_ne.mpr hcm)]
  refine ⟨?_, ?_, ?_, ?_⟩
  · rw [update_eq_phases]
    have hop : ("ALTER TABLE `" ++ sc.Name ++ "` ADD `" ++ f.Name ++ "` " ++
        f.«Type» ++ fieldSuffix f) ∈ fieldAddModOps sc cur := by
      unfold fieldAddModOps
      exact List.mem_filterMap.mpr ⟨f, hmem, by rw [habsent]; rfl⟩
    simp only [List.mem_append]
    exact Or.inl (Or.inl (Or.inr hop))
  · have hsplitA : ("` ADD `").data = ("` ADD ").data ++ ("`").data := rfl
    have hsplitB : ("` ").data = ("`").data ++ (" ").data := rfl
    have h1 : ("ALTER TABLE `" ++ sc.Name ++ "` ADD `" ++ f.Name ++ "` " ++
        f.«Type» ++ fieldSuffix f).data =
        (("ALTER TABLE `").data ++ sc.Name.data ++ ("` ADD ").data) ++
          (("`").data ++ f.Name.data ++ ("`").data) ++
          ((" ").data ++ f.«Type».data ++ (fieldSuffix f).data) := by
      simp [String.data_append, hsplitA, hsplitB, List.append_assoc]
    rw [show ("`" ++ f.Name ++ "`").data =
        ("`").data ++ f.Name.data ++ ("`").data from by
      simp [String.data_append, List.append_assoc], h1]
    rw [show (("ALTER TABLE `").data ++ sc.Name.data ++ ("` ADD ").data) ++
        (("`").data ++ f.Name.data ++ ("`").data) ++
        ((" ").data ++ f.«Type».data ++ (fieldSuffix f).data) =
        (("ALTER TABLE `").data ++ sc.Name.data ++ ("` ADD ").data) ++
        (("`").data ++ (f.Name.data ++ ("`").data)) ++
        ((" ").data ++ f.«Type».data ++ (fieldSuffix f).data) from by
      simp [List.append_assoc]]
    rw [show ("`").data ++ f.Name.data ++ ("`").data =
        ("`").data ++ (f.Name.data ++ ("`").data) from by simp [List.append_assoc]]
    exact List.infix_append _ _ _
  · have h3 : ("ALTER TABLE `" ++ sc.Name ++ "` ADD `" ++ f.Name ++ "` " ++
        f.«Type» ++ fieldSuffix f).data =
        (("ALTER TABLE `").data ++ sc.Name.data ++ ("` ADD `").data ++ f.Name.data ++
          ("` ").data ++ f.«Type».data ++
          (if f.Nullable then " NULL" else " NOT NULL").data ++
          (if f.AutoIncrement then " AUTO_INCREMENT" else "").data) ++
          ((" DEFAULT ").data ++ f.DefaultValue.data) ++
          ((" COMMENT '").data ++ (escape f.Comment).data ++ ("'").data) := by
      rw [hsuffix]
      simp [String.data_append, List.append_assoc]
    rw [show (" DEFAULT " ++ f.DefaultValue).data =
        (" DEFAULT ").data ++ f.DefaultValue.data from String.data_append _ _, h3]
    exact List.infix_append _ _ _
  · have h4 : ("ALTER TABLE `" ++ sc.Name ++ "` ADD `" ++ f.Name ++ "` " ++
        f.«Type» ++ fieldSuffix f).data =
        (("ALTER TABLE `").data ++ sc.Name.data ++ ("` ADD `").data ++ f.Name.data ++
          ("` ").data ++ f.«Type».data ++
          (if f.Nullable then " NULL" else " NOT NULL").data ++
          (if f.AutoIncrement then " AUTO_INCREMENT" else "").data ++
          ((" DEFAULT ").data ++ f.DefaultValue.data)) ++
          ((" COMMENT '").data ++ (escape f.Comment).data ++ ("'").data) := by
      rw [hsuffix]
      simp [String.data_append, List.append_assoc]
    rw [show (" COMMENT '" ++ escape f.Comment ++ "'").data =
        (" COMMENT '").data ++ (escape f.Comment).data ++ ("'").data from by
      simp [String.data_append, List.append_assoc], h4]
    rw [show ((" COMMENT '").data ++ (escape f.Comment).data ++ ("'").data : List Char) =
        (" COMMENT '").data ++ ((escape f.Comment).data ++ ("'").data) from by
      simp [List.append_assoc]]
    rw [show ((("ALTER TABLE `").data ++ sc.Name.data ++ ("` ADD `").data ++ f.Name.data ++
          ("` ").data ++ f.«Type».data ++
          (if f.Nullable then " NULL" else " NOT NULL").data ++
          (if f.AutoIncrement then " AUTO_INCREMENT" else "").data ++
          ((" DEFAULT ").data ++ f.DefaultValue.data)) ++
          ((" COMMENT '").data ++ ((escape f.Comment).data ++ ("'").data)) : List Char) =
        (("ALTER TABLE `").data ++ sc.Name.data ++ ("` ADD `").data ++ f.Name.data ++
          ("` ").data ++ f.«Type».data ++
          (if f.Nullable then " NULL" else " NOT NULL").data ++
          (if f.AutoIncrement then " AUTO_INCREMENT" else "").data ++
          ((" DEFAULT ").data ++ f.DefaultValue.data)) ++
          ((" COMMENT '").data ++ ((escape f.Comment).data ++ ("'").data)) ++ [] from by
      simp]
    exact List.infix_append _ _ _

/-- Witness: the quoting/escaping facts on a concrete field whose default and
comment both contain a quote. -/
theorem literal_quoting_and_escaping_witness :
    (("ALTER TABLE `" ++ rawDefaultSchema.Name ++ "` ADD `" ++
        ({ rawDefaultField with Comment := "it's" } : Field).Name ++ "` " ++
        ({ rawDefaultField with Comment := "it's" } : Field).«Type» ++
        fieldSuffix { rawDefaultField with Comment := "it's" }) ∈
      Schema.updateStatements
        { rawDefaultSchema with Fields := [{ rawDefaultField with Comment := "it's" }] }
        { rawDefaultSchema with Fields := [] }) ∧
    ("`" ++ ({ rawDefaultField with Comment := "it's" } : Field).Name ++ "`").data <:+:
      ("ALTER TABLE `" ++ rawDefaultSchema.Name ++ "` ADD `" ++
        ({ rawDefaultField with Comment := "it's" } : Field).Name ++ "` " ++
        ({ rawDefaultField with Comment := "it's" } : Field).«Type» ++
        fieldSuffix { rawDefaultField with Comment := "it's" }).data ∧
    (" DEFAULT " ++ ({ rawDefaultField with Comment := "it's" } : Field).DefaultValue).data <:+:
      ("ALTER TABLE `" ++ rawDefaultSchema.Name ++ "` ADD `" ++
        ({ rawDefaultField with Comment := "it's" } : Field).Name ++ "` " ++
        ({ rawDefaultField with Comment := "it's" } : Field).«Type» ++
        fieldSuffix { rawDefaultField with Comment := "it's" }).data ∧
    (" COMMENT '" ++ escape ({ rawDefaultField with Comment := "it's" } : Field).Comment ++ "'").data <:+:
      ("ALTER TABLE `" ++ rawDefaultSchema.Name ++ "` ADD `" ++
        ({ rawDefaultField with Comment := "it's" } : Field).Name ++ "` " ++
        ({ rawDefaultField with Comment := "it's" } : Field).«Type» ++
        fieldSuffix { rawDefaultField with Comment := "it's" }).data := by
  have h := literal_quoting_and_escaping
    { rawDefaultSchema with Fields := [{ rawDefaultField with Comment := "it's" }] }
    { rawDefaultSchema with Fields := [] }
    { rawDefaultField with Comment := "it's" }
    (by decide) (by decide) (by decide) (by decide)
  exact h


end Sqlschema
